import Mathlib

/-!
Shallow embedding of `azure-upload.py`, a page-blob uploader: a run-length
chunker (`page_upload`'s main loop) splits a file into 512-byte pages,
coalesces contiguous same-kind pages into bounded runs, and flushes each run
through `page_write`, which enqueues only "update" (DATA) runs on the worker
queue; a pool of workers (`request_handler`) performs each queued write with
up to 5 attempts, acknowledging successes with `task_done` and setting the
shared `done` flag on a permanent failure, while the producer waits on
`queue.join()`.

Machine integers do not overflow in the reachable range (Python integers are
unbounded), so sizes and offsets are `Nat`; the one subtraction in the
source (`end = offset + size - 1`) is taken in `Int` exactly as Python would.
-/

namespace AzUp

/-- MAX_SIZE = 4 * 1048576 (line 40 of the source). -/
def MAX_SIZE : Nat := 4 * 1048576

/-- PAGE_SIZE = 512 (line 41 of the source). -/
def PAGE_SIZE : Nat := 512

/-- Classification of a page: "clear" when the page equals
`bytearray(PAGE_SIZE)` (all zero bytes), "update" otherwise (lines 176-179). -/
inductive PageKind where
  | clear
  | update
deriving DecidableEq, Repr

/-- A tuple placed on the worker queue by `page_write` (line 142):
`queue.put((bs, container, file, data, range, type))`, with the constant
`bs`/`container`/`file` components dropped and the range string
`'bytes=%lu-%lu' % (offset, end)` kept as its two numbers.  `rangeEnd` is
`offset + size - 1`, computed in `Int` as Python computes it. -/
structure WriteTask where
  rangeStart : Nat
  rangeEnd : Int
  payload : Option (List Nat)
  kind : PageKind
deriving DecidableEq, Repr

/-- Byte length of a queued task's range: the number of bytes the
`bytes=a-b` header covers, `b + 1 - a`. -/
def taskLen (t : WriteTask) : Nat := (t.rangeEnd + 1 - (t.rangeStart : Int)).toNat

/-- The payload-free shape of a task: (range start, byte length, kind). -/
def taskSig (t : WriteTask) : Nat × Nat × PageKind := (t.rangeStart, taskLen t, t.kind)

/-- One invocation of `page_write` (a flush of the current run), recording
the arguments `(data, offset, size, type)` it received (lines 136-143).
`fkind = none` models Python's `chunk_type == None`. -/
structure FlushCall where
  fdata : Option (List Nat)
  foffset : Nat
  fsize : Nat
  fkind : Option PageKind
deriving DecidableEq, Repr

/-- The payload-free shape of a flush call: (offset, size, kind). -/
def flushSig (f : FlushCall) : Nat × Nat × Option PageKind := (f.foffset, f.fsize, f.fkind)

/-- `page_write(bs, container, file, data, offset, size, type)` (lines
136-143): for any type other than "update" it returns 0 and enqueues
nothing; for "update" it enqueues the task with range
`bytes=offset-(offset+size-1)` and returns `size`. -/
def page_write (data : Option (List Nat)) (offset size : Nat) (ty : Option PageKind) :
    Option WriteTask × Nat :=
  if ty ≠ some PageKind.update then (none, 0)
  else (some { rangeStart := offset,
               rangeEnd := (offset : Int) + (size : Int) - 1,
               payload := data,
               kind := PageKind.update }, size)

/-- The chunker's loop state in `page_upload` (lines 167-172): the current
run (`chunk_type`, `chunk_start`, `chunk_size`, `chunk_data`), the running
`uploaded` total, plus the observable history: every `page_write` call made
(`flushes`) and every task enqueued (`tasks`), in emission order. -/
structure ChunkState where
  chunk_type : Option PageKind
  chunk_start : Nat
  chunk_size : Nat
  chunk_data : Option (List Nat)
  uploaded : Nat
  flushes : List FlushCall
  tasks : List WriteTask
deriving DecidableEq, Repr

/-- Initial chunker state (lines 167-172): `chunk_type = None`,
`chunk_start = 0`, `chunk_size = 0`, `chunk_data = None`, `uploaded = 0`. -/
def initChunk : ChunkState :=
  { chunk_type := none, chunk_start := 0, chunk_size := 0, chunk_data := none,
    uploaded := 0, flushes := [], tasks := [] }

/-- `uploaded += page_write(blobsvc, container, file, chunk_data, chunk_start,
chunk_size, chunk_type)` as it appears at lines 182, 194 and 200: record the
call, enqueue the task it produced (if any), add its return value. -/
def doFlush (s : ChunkState) : ChunkState :=
  let pw := page_write s.chunk_data s.chunk_start s.chunk_size s.chunk_type
  { s with uploaded := s.uploaded + pw.2,
           flushes := s.flushes ++
             [{ fdata := s.chunk_data, foffset := s.chunk_start,
                fsize := s.chunk_size, fkind := s.chunk_type }],
           tasks := s.tasks ++ pw.1.toList }

/-- Page classification (lines 176-179): `data == bytearray(PAGE_SIZE)`
means "clear", anything else "update". -/
def classifyPage (data : List Nat) : PageKind :=
  if data = List.replicate PAGE_SIZE 0 then PageKind.clear else PageKind.update

/-- One iteration of the chunker's while-loop body (lines 174-198) for the
page `data` read at `offset`: flush and restart the run on a kind change
(lines 181-187), append the page (lines 189-191), flush and clear
`chunk_type` when the run reaches exactly MAX_SIZE (lines 193-196). -/
def chunkStep (offset : Nat) (data : List Nat) (s : ChunkState) : ChunkState :=
  let ty := classifyPage data
  let s1 :=
    if s.chunk_type ≠ some ty then
      let sf := doFlush s
      { sf with chunk_type := some ty, chunk_start := offset,
                chunk_size := 0, chunk_data := some [] }
    else s
  let s2 := { s1 with
              chunk_size := s1.chunk_size + PAGE_SIZE,
              chunk_data := if ty = PageKind.update
                            then some (s1.chunk_data.getD [] ++ data)
                            else s1.chunk_data }
  if s2.chunk_size = MAX_SIZE then { doFlush s2 with chunk_type := none } else s2

/-- The while-loop of lines 173-198: pages are read sequentially at offsets
0, PAGE_SIZE, 2*PAGE_SIZE, ... -/
def chunkLoop : List (List Nat) → Nat → ChunkState → ChunkState
  | [], _, s => s
  | p :: ps, offset, s => chunkLoop ps (offset + PAGE_SIZE) (chunkStep offset p s)

/-- Splitting the file's bytes into the successive `f.read(PAGE_SIZE)`
results, fuelled by the file length so the recursion is structural. -/
def toPagesAux : Nat → List Nat → List (List Nat)
  | 0, _ => []
  | _ + 1, [] => []
  | fuel + 1, b :: rest => ((b :: rest).take PAGE_SIZE) :: toPagesAux fuel ((b :: rest).drop PAGE_SIZE)

/-- The sequence of pages `f.read(PAGE_SIZE)` yields over the whole file. -/
def toPages (file : List Nat) : List (List Nat) := toPagesAux file.length file

/-- The chunking phase of `page_upload` for one file: the loop of lines
173-198 followed by the final flush of line 200. -/
def chunkFile (file : List Nat) : ChunkState :=
  doFlush (chunkLoop (toPages file) 0 initChunk)

/-- What one call of `page_upload` did: the successful `put_blob` calls made
(each recorded by its declared content length), every `page_write` call,
every enqueued task, and the returned triple — `none` when the call raised
instead of returning (the source catches no exception from `put_blob`, line
164).  `result` models the value returned once `queue.join()` (line 203)
returns; whether that join ever returns is settled by the worker model
below. -/
structure UploadTrace where
  initCalls : List Nat
  flushes : List FlushCall
  tasks : List WriteTask
  result : Option (Bool × Nat × Nat)
deriving DecidableEq, Repr

/-- A file handed to `page_upload`: `contents = none` models `open` raising
IOError (lines 147-152); `initOk = false` models `put_blob` (line 164)
raising a transport or auth error. -/
structure FileInput where
  contents : Option (List Nat)
  initOk : Bool
deriving DecidableEq, Repr

/-- `page_upload(blobsvc, container, file)` (lines 146-204): return
`(False, 0, 0)` when open fails; return `(False, filesize, 0)` when the
size is not a multiple of PAGE_SIZE; call `put_blob` (uncaught on failure:
`result = none`); otherwise run the chunker and return
`(True, filesize, uploaded)`. -/
def page_upload (inp : FileInput) : UploadTrace :=
  match inp.contents with
  | none => { initCalls := [], flushes := [], tasks := [], result := some (false, 0, 0) }
  | some file =>
    let filesize := file.length
    if filesize % PAGE_SIZE ≠ 0 then
      { initCalls := [], flushes := [], tasks := [], result := some (false, filesize, 0) }
    else if inp.initOk = false then
      { initCalls := [], flushes := [], tasks := [], result := none }
    else
      let s := chunkFile file
      { initCalls := [filesize], flushes := s.flushes, tasks := s.tasks,
        result := some (true, filesize, s.uploaded) }

/-- Outcome of the page-blob main loop (lines 207-216): the per-file
results accumulated in order, `total_uploaded`, and whether an uncaught
exception escaped the loop (`raised = true` means the process died before
reaching the files after the failing one). -/
structure RunSummary where
  results : List (Bool × Nat × Nat)
  total_uploaded : Nat
  raised : Bool
deriving DecidableEq, Repr

/-- The `for file in args.files` loop of lines 210-215: files are processed
sequentially; the loop body catches nothing, so a raising `page_upload`
ends the loop (and the process) at that file. -/
def mainLoop : List FileInput → RunSummary
  | [] => { results := [], total_uploaded := 0, raised := false }
  | inp :: rest =>
    match (page_upload inp).result with
    | none => { results := [], total_uploaded := 0, raised := true }
    | some r =>
      let s := mainLoop rest
      { results := r :: s.results, total_uploaded := r.2.2 + s.total_uploaded,
        raised := s.raised }

/-- The retry loop of `request_handler` (lines 109-118): `attempts = 0`,
`success = False`, then `while not success and attempts < 5` try the remote
write; `ok k` tells whether the k-th attempt's `put_page` succeeds (an
attempt that raises is caught by the bare `except` and leaves `success`
false).  The fuel argument counts the attempts still allowed, so
`retryAux ok (5 - attempts) attempts success` is the loop at a general
point and the loop itself starts with fuel 5. -/
def retryAux (ok : Nat → Bool) : Nat → Nat → Bool → Nat × Bool
  | 0, attempts, success => (attempts, success)
  | _ + 1, attempts, true => (attempts, true)
  | fuel + 1, attempts, false => retryAux ok fuel (attempts + 1) (ok (attempts + 1))

/-- The whole retry loop from its entry state. -/
def retryLoop (ok : Nat → Bool) : Nat × Bool := retryAux ok 5 0 false

/-- A task as the workers see it: the queued tuple together with the
behaviour of the remote-write collaborator for it (`writeOk k` = the k-th
`put_page` attempt succeeds). -/
structure QueuedTask where
  task : WriteTask
  writeOk : Nat → Bool

/-- What one worker pass over a task produced: the task, the final
`attempts` counter, and whether it ended in success (lines 119-127). -/
structure TaskOutcome where
  otask : WriteTask
  attempts : Nat
  success : Bool
deriving DecidableEq, Repr

/-- Shared dispatch state: the `done` flag (line 97), the queue's
unfinished-task counter (`queue.put` increments it, `queue.task_done`
decrements it, `queue.join` waits for zero), and the outcomes so far. -/
structure SysState where
  done : Bool
  unfinished : Nat
  outcomes : List TaskOutcome
deriving DecidableEq, Repr

/-- One pass of `request_handler`'s outer loop over one queued task (lines
103-127): a worker checks `done` before dequeuing; on success it calls
`queue.task_done()`; on exhausting the 5 attempts it sets `done = True` and
does NOT call `task_done`. -/
def request_handler_task (s : SysState) (q : QueuedTask) : SysState :=
  if s.done = true then s
  else
    let r := retryLoop q.writeOk
    if r.2 = true then
      { done := s.done, unfinished := s.unfinished - 1,
        outcomes := s.outcomes ++ [{ otask := q.task, attempts := r.1, success := true }] }
    else
      { done := true, unfinished := s.unfinished,
        outcomes := s.outcomes ++ [{ otask := q.task, attempts := r.1, success := false }] }

/-- The workers drain the queue in arrival order (the queue is FIFO and a
worker only dequeues while `done` is clear). -/
def runWorkers : List QueuedTask → SysState → SysState
  | [], s => s
  | q :: rest, s => runWorkers rest (request_handler_task s q)

/-- State after all the file's tasks have been enqueued: each `queue.put`
incremented the unfinished counter, `done` starts clear. -/
def initSys (qs : List QueuedTask) : SysState :=
  { done := false, unfinished := qs.length, outcomes := [] }

/-- Final dispatch state for one file's queued tasks. -/
def drainSystem (qs : List QueuedTask) : SysState := runWorkers qs (initSys qs)

/-- The condition under which `queue.join()` (line 203) returns: the
unfinished-task counter is zero.  `join` consults nothing else — in
particular not the `done` flag. -/
def joinReturns (s : SysState) : Bool := s.unfinished = 0

/-- Payload-free image of the chunker state: the classification, offsets
and sizes, with flushes and tasks reduced to their shapes.  Every branch of
the chunker is decided by these fields alone. -/
structure KState where
  kty : Option PageKind
  kstart : Nat
  ksize : Nat
  kuploaded : Nat
  kflushes : List (Nat × Nat × Option PageKind)
  ktasks : List (Nat × Nat × PageKind)
deriving DecidableEq, Repr

/-- The projection from the chunker state to its payload-free image. -/
def projChunk (s : ChunkState) : KState :=
  { kty := s.chunk_type, kstart := s.chunk_start, ksize := s.chunk_size,
    kuploaded := s.uploaded, kflushes := s.flushes.map flushSig,
    ktasks := s.tasks.map taskSig }

/-- `doFlush` on the payload-free image. -/
def kDoFlush (s : KState) : KState :=
  { s with kuploaded := s.kuploaded + (if s.kty = some PageKind.update then s.ksize else 0),
           kflushes := s.kflushes ++ [(s.kstart, s.ksize, s.kty)],
           ktasks := s.ktasks ++
             (if s.kty = some PageKind.update
              then [(s.kstart, s.ksize, PageKind.update)] else []) }

/-- `chunkStep` on the payload-free image, driven by the page's
classification only. -/
def kStep (offset : Nat) (ty : PageKind) (s : KState) : KState :=
  let s1 :=
    if s.kty ≠ some ty then
      { kDoFlush s with kty := some ty, kstart := offset, ksize := 0 }
    else s
  let s2 := { s1 with ksize := s1.ksize + PAGE_SIZE }
  if s2.ksize = MAX_SIZE then { kDoFlush s2 with kty := none } else s2

/-- `chunkLoop` on the payload-free image. -/
def kChunkLoop : List PageKind → Nat → KState → KState
  | [], _, s => s
  | t :: ts, offset, s => kChunkLoop ts (offset + PAGE_SIZE) (kStep offset t s)

/-- Initial payload-free chunker state. -/
def kInit : KState :=
  { kty := none, kstart := 0, ksize := 0, kuploaded := 0, kflushes := [], ktasks := [] }

/-- Whole-file chunking on the payload-free image. -/
def kChunkFile (ts : List PageKind) : KState := kDoFlush (kChunkLoop ts 0 kInit)

/-- Exact tiling of [lo, hi) by (offset, size, kind) triples taken in
order: each starts where the previous ended, each is non-empty, and the
last ends exactly at hi. -/
def tilesK : Nat → Nat → List (Nat × Nat × Option PageKind) → Bool
  | lo, hi, [] => decide (lo = hi)
  | lo, hi, r :: rs => decide (r.1 = lo) && decide (0 < r.2.1) && tilesK (lo + r.2.1) hi rs

/-- Exact tiling of [lo, hi) by the recorded flush calls in order. -/
def tilesB (lo hi : Nat) (fs : List FlushCall) : Bool := tilesK lo hi (fs.map flushSig)

/-- The non-empty runs among the recorded flush calls: the calls whose
`chunk_type` argument was an actual kind (the kind-`none` calls are the
initial empty flush and the stale re-flush after a MAX_SIZE boundary, and
flush nothing). -/
def runsOf (fs : List FlushCall) : List FlushCall := fs.filter (fun f => f.fkind.isSome)

/-- Same filter on payload-free flush shapes. -/
def runsK (ks : List (Nat × Nat × Option PageKind)) : List (Nat × Nat × Option PageKind) :=
  ks.filter (fun r => r.2.2.isSome)

/-- The task shape an update-kind flush shape enqueues (`page_write`'s
enqueue case, on shapes): defined so that a chunk state's task list is
always the filterMap of its flush list. -/
def taskOfFlushK (r : Nat × Nat × Option PageKind) : Option (Nat × Nat × PageKind) :=
  if r.2.2 = some PageKind.update then some (r.1, r.2.1, PageKind.update) else none

/-- The amount an individual flush shape adds to `uploaded`
(`page_write`'s return value, on shapes). -/
def upOfFlushK (r : Nat × Nat × Option PageKind) : Nat :=
  if r.2.2 = some PageKind.update then r.2.1 else 0

/-- The byte boundary up to which the chunker has accounted the file when
the read offset is `o`: the start of the open run while one is open,
otherwise `o` itself. -/
def kBoundary (o : Nat) (s : KState) : Nat :=
  match s.kty with
  | none => o
  | some _ => s.kstart

/-- The chunker's loop invariant at read offset `o`: the non-empty runs
flushed so far exactly tile [0, boundary); an open run is non-empty,
page-aligned, strictly below MAX_SIZE and ends exactly at `o`; every
flushed non-empty run is page-aligned, non-empty and at most MAX_SIZE; the
task list is exactly the update flushes; `uploaded` is exactly the sum of
the update flushes' sizes. -/
def KInv (o : Nat) (s : KState) : Prop :=
  tilesK 0 (kBoundary o s) (runsK s.kflushes) = true ∧
  (∀ ty, s.kty = some ty →
      s.kstart + s.ksize = o ∧ 0 < s.ksize ∧ s.ksize < MAX_SIZE ∧
      s.ksize % PAGE_SIZE = 0) ∧
  (∀ r ∈ s.kflushes, r.2.2.isSome = true →
      0 < r.2.1 ∧ r.2.1 % PAGE_SIZE = 0 ∧ r.2.1 ≤ MAX_SIZE) ∧
  s.ktasks = s.kflushes.filterMap taskOfFlushK ∧
  s.kuploaded = (s.kflushes.map upOfFlushK).sum

/-- A data page of ones. -/
def exPageData : List Nat := List.replicate PAGE_SIZE 1

/-- A zero page. -/
def exPageZero : List Nat := List.replicate PAGE_SIZE 0

/-- A two-page file: one zero page followed by one data page. -/
def exFile2 : List Nat := exPageZero ++ exPageData

/-- A file of MAX_SIZE + PAGE_SIZE bytes, every page nonzero. -/
def exBigFile : List Nat := List.replicate (MAX_SIZE + PAGE_SIZE) 1

/-- The single task the chunker enqueues for a one-page all-ones file. -/
def exTask2 : WriteTask :=
  { rangeStart := 0, rangeEnd := 511, payload := some exPageData,
    kind := PageKind.update }

/-- A fixed queued-task tuple for the worker examples. -/
def exTask1 : WriteTask :=
  { rangeStart := 0, rangeEnd := 511, payload := some [1], kind := PageKind.update }

/-- A task whose remote write fails on every attempt. -/
def exFailTask : QueuedTask := { task := exTask1, writeOk := fun _ => false }

/-- A task whose remote write succeeds on every attempt. -/
def exOkTask : QueuedTask := { task := exTask1, writeOk := fun _ => true }

/-- A task whose remote write first succeeds on the third attempt. -/
def exThirdTask : QueuedTask := { task := exTask1, writeOk := fun k => decide (3 ≤ k) }

end AzUp

namespace AzUp

/-! ## Retry-loop lemmas -/

lemma retryLoop_spec (ok : Nat → Bool) :
    retryLoop ok =
      if ok 1 = true then (1, true)
      else if ok 2 = true then (2, true)
      else if ok 3 = true then (3, true)
      else if ok 4 = true then (4, true)
      else (5, ok 5) := by
  show retryAux ok 4 1 (ok 1) = _
  cases h1 : ok 1 with
  | false =>
    show retryAux ok 3 2 (ok 2) = _
    cases h2 : ok 2 with
    | false =>
      show retryAux ok 2 3 (ok 3) = _
      cases h3 : ok 3 with
      | false =>
        show retryAux ok 1 4 (ok 4) = _
        cases h4 : ok 4 with
        | false => rfl
        | true => rfl
      | true => rfl
    | true => rfl
  | true => rfl

lemma retryLoop_attempts (ok : Nat → Bool) :
    1 ≤ (retryLoop ok).1 ∧ (retryLoop ok).1 ≤ 5 := by
  rw [retryLoop_spec]
  split_ifs <;> simp

lemma retryLoop_fail5 (ok : Nat → Bool) (h : (retryLoop ok).2 = false) :
    (retryLoop ok).1 = 5 := by
  rw [retryLoop_spec] at h ⊢
  split_ifs at h ⊢ <;> simp_all

lemma retryLoop_first (ok : Nat → Bool) (h : (retryLoop ok).2 = true) :
    ok (retryLoop ok).1 = true ∧
    ∀ j, 1 ≤ j → j < (retryLoop ok).1 → ok j = false := by
  rw [retryLoop_spec] at h ⊢
  split_ifs at h ⊢ with h1 h2 h3 h4
  · refine ⟨by simpa using h1, ?_⟩
    intro j hj1 hj2
    simp at hj2
    omega
  · refine ⟨by simpa using h2, ?_⟩
    intro j hj1 hj2
    simp at hj2
    simp only [Bool.not_eq_true] at h1
    interval_cases j
    exact h1
  · refine ⟨by simpa using h3, ?_⟩
    intro j hj1 hj2
    simp at hj2
    simp only [Bool.not_eq_true] at h1 h2
    interval_cases j
    · exact h1
    · exact h2
  · refine ⟨by simpa using h4, ?_⟩
    intro j hj1 hj2
    simp at hj2
    simp only [Bool.not_eq_true] at h1 h2 h3
    interval_cases j
    · exact h1
    · exact h2
    · exact h3
  · refine ⟨by simpa using h, ?_⟩
    intro j hj1 hj2
    simp at hj2
    simp only [Bool.not_eq_true] at h1 h2 h3 h4
    interval_cases j
    · exact h1
    · exact h2
    · exact h3
    · exact h4

/-! ## Worker-pool lemmas -/

lemma rht_absorb (s : SysState) (q : QueuedTask) (h : s.done = true) :
    request_handler_task s q = s := by
  simp [request_handler_task, h]

lemma rht_success (s : SysState) (q : QueuedTask) (hd : s.done = false)
    (hr : (retryLoop q.writeOk).2 = true) :
    request_handler_task s q =
      { done := false, unfinished := s.unfinished - 1,
        outcomes := s.outcomes ++
          [{ otask := q.task, attempts := (retryLoop q.writeOk).1, success := true }] } := by
  simp [request_handler_task, hd, hr]

lemma rht_failure (s : SysState) (q : QueuedTask) (hd : s.done = false)
    (hr : (retryLoop q.writeOk).2 = false) :
    request_handler_task s q =
      { done := true, unfinished := s.unfinished,
        outcomes := s.outcomes ++
          [{ otask := q.task, attempts := (retryLoop q.writeOk).1, success := false }] } := by
  simp [request_handler_task, hd, hr]

lemma runWorkers_absorb : ∀ (qs : List QueuedTask) (s : SysState),
    s.done = true → runWorkers qs s = s := by
  intro qs
  induction qs with
  | nil => intro s _; rfl
  | cons q rest ih =>
    intro s h
    simp only [runWorkers]
    rw [rht_absorb s q h]
    exact ih s h

lemma runWorkers_mem : ∀ (qs : List QueuedTask) (s : SysState) (o : TaskOutcome),
    o ∈ (runWorkers qs s).outcomes →
    o ∈ s.outcomes ∨ ∃ q ∈ qs,
      o = { otask := q.task, attempts := (retryLoop q.writeOk).1,
            success := (retryLoop q.writeOk).2 } := by
  intro qs
  induction qs with
  | nil => intro s o h; exact Or.inl h
  | cons q rest ih =>
    intro s o h
    simp only [runWorkers] at h
    by_cases hd : s.done = true
    · rw [rht_absorb s q hd] at h
      rcases ih s o h with h' | ⟨q', hq', he⟩
      · exact Or.inl h'
      · exact Or.inr ⟨q', List.mem_cons_of_mem _ hq', he⟩
    · have hdf : s.done = false := by simpa using hd
      cases hr : (retryLoop q.writeOk).2 with
      | true =>
        rw [rht_success s q hdf hr] at h
        rcases ih _ o h with h' | ⟨q', hq', he⟩
        · rcases List.mem_append.mp h' with h'' | h''
          · exact Or.inl h''
          · refine Or.inr ⟨q, List.mem_cons_self _ _, ?_⟩
            simp at h''
            rw [h'', hr]
        · exact Or.inr ⟨q', List.mem_cons_of_mem _ hq', he⟩
      | false =>
        rw [rht_failure s q hdf hr] at h
        rcases ih _ o h with h' | ⟨q', hq', he⟩
        · rcases List.mem_append.mp h' with h'' | h''
          · exact Or.inl h''
          · refine Or.inr ⟨q, List.mem_cons_self _ _, ?_⟩
            simp at h''
            rw [h'', hr]
        · exact Or.inr ⟨q', List.mem_cons_of_mem _ hq', he⟩

lemma runWorkers_done_iff : ∀ (qs : List QueuedTask) (s : SysState),
    (s.done = true ↔ ∃ o ∈ s.outcomes, o.success = false) →
    ((runWorkers qs s).done = true ↔
      ∃ o ∈ (runWorkers qs s).outcomes, o.success = false) := by
  intro qs
  induction qs with
  | nil => intro s h; exact h
  | cons q rest ih =>
    intro s h
    simp only [runWorkers]
    by_cases hd : s.done = true
    · rw [rht_absorb s q hd]; exact ih s h
    · have hdf : s.done = false := by simpa using hd
      cases hr : (retryLoop q.writeOk).2 with
      | true =>
        rw [rht_success s q hdf hr]
        apply ih
        constructor
        · intro hfalse; exact absurd hfalse (by simp)
        · rintro ⟨o, ho, hf⟩
          rcases List.mem_append.mp ho with h' | h'
          · exact absurd (h.mpr ⟨o, h', hf⟩) hd
          · simp at h'
            rw [h'] at hf
            simp at hf
      | false =>
        rw [rht_failure s q hdf hr]
        apply ih
        constructor
        · intro _
          exact ⟨_, List.mem_append.mpr (Or.inr (List.mem_singleton.mpr rfl)), rfl⟩
        · intro _; rfl

lemma runWorkers_done_pos : ∀ (qs : List QueuedTask) (s : SysState),
    qs.length ≤ s.unfinished → (s.done = true → 0 < s.unfinished) →
    ((runWorkers qs s).done = true → 0 < (runWorkers qs s).unfinished) := by
  intro qs
  induction qs with
  | nil => intro s _ hd; exact hd
  | cons q rest ih =>
    intro s hle hd
    simp only [runWorkers]
    by_cases hdone : s.done = true
    · rw [rht_absorb s q hdone]
      exact ih s (by simp at hle; omega) hd
    · have hdf : s.done = false := by simpa using hdone
      cases hr : (retryLoop q.writeOk).2 with
      | true =>
        rw [rht_success s q hdf hr]
        apply ih
        · simp at hle ⊢; omega
        · intro hfalse; exact absurd hfalse (by simp)
      | false =>
        rw [rht_failure s q hdf hr]
        apply ih
        · simp at hle ⊢; omega
        · intro _; simp at hle ⊢; omega

lemma runWorkers_drained : ∀ (qs : List QueuedTask) (s : SysState),
    s.done = false → (runWorkers qs s).done = false →
    (runWorkers qs s).unfinished = s.unfinished - qs.length ∧
    (runWorkers qs s).outcomes.length = s.outcomes.length + qs.length := by
  intro qs
  induction qs with
  | nil => intro s _ _; simp [runWorkers]
  | cons q rest ih =>
    intro s hd hfin
    simp only [runWorkers] at hfin ⊢
    cases hr : (retryLoop q.writeOk).2 with
    | true =>
      rw [rht_success s q hd hr] at hfin ⊢
      have := ih _ rfl hfin
      simp at this ⊢
      omega
    | false =>
      rw [rht_failure s q hd hr] at hfin
      rw [runWorkers_absorb rest _ rfl] at hfin
      exact absurd hfin (by simp)

end AzUp

namespace AzUp

/-- C1 is refuted on the code: with a single queued task whose remote write
fails on every attempt, the abort flag (`done`) is set, yet the condition
under which `queue.join()` — `page_upload`'s per-file drain wait — returns
never holds, because the failed task was never acknowledged with
`task_done`. -/
theorem C1_counterexample :
    ¬ ((drainSystem [exFailTask]).done = true →
        joinReturns (drainSystem [exFailTask]) = true) := by
  decide

/-- C1 (amended): if some task permanently fails then the abort flag
(`done`) is set and its TaskOutcome records attempts = 5, but the failed
task is never acknowledged, so the outstanding-task counter stays positive
and the drain wait (`queue.join()`, which waits only for the counter to
reach zero and ignores the abort flag) never returns — processing any
further queued tasks leaves the state unchanged, so the counter can never
fall to zero and `page_upload` does not complete for that file. -/
theorem C1_abort_set_but_join_never_returns (qs more : List QueuedTask)
    (h : (drainSystem qs).done = true) :
    (∃ o ∈ (drainSystem qs).outcomes, o.success = false ∧ o.attempts = 5) ∧
    joinReturns (drainSystem qs) = false ∧
    runWorkers more (drainSystem qs) = drainSystem qs := by
  refine ⟨?_, ?_, runWorkers_absorb more _ h⟩
  · have hiff := runWorkers_done_iff qs (initSys qs) (by simp [initSys])
    obtain ⟨o, ho, hfail⟩ := hiff.mp h
    refine ⟨o, ho, hfail, ?_⟩
    rcases runWorkers_mem qs (initSys qs) o ho with h' | ⟨q, _, he⟩
    · simp [initSys] at h'
    · rw [he] at hfail ⊢
      exact retryLoop_fail5 q.writeOk hfail
  · have hpos : 0 < (drainSystem qs).unfinished :=
      runWorkers_done_pos qs (initSys qs) (by simp [initSys]) (by simp [initSys]) h
    simp [joinReturns]
    omega

/-- Witness for C1's amended theorem at a concrete one-task queue whose
write always fails: the join condition is false and further tasks leave the
state unchanged. -/
theorem C1_witness :
    joinReturns (drainSystem [exFailTask]) = false ∧
    runWorkers [exOkTask] (drainSystem [exFailTask]) = drainSystem [exFailTask] :=
  ⟨(C1_abort_set_but_join_never_returns [exFailTask] [exOkTask] (by decide)).2.1,
   (C1_abort_set_but_join_never_returns [exFailTask] [exOkTask] (by decide)).2.2⟩

/-- C5: every outcome required at most 5 write attempts, a failed outcome
used exactly 5, a successful retry loop succeeded on its first succeeding
attempt with every earlier attempt's failure absorbed, a run in which the
abort flag never got set acknowledged every task (the counter drained to
zero, with one outcome per task), and once the abort flag is set no worker
dequeues any further task (the state is unchanged by any remaining queue). -/
theorem C5_retry_bound_and_abort (qs more : List QueuedTask) :
    (∀ o ∈ (drainSystem qs).outcomes,
        1 ≤ o.attempts ∧ o.attempts ≤ 5 ∧ (o.success = false → o.attempts = 5)) ∧
    (∀ ok : Nat → Bool, (retryLoop ok).2 = true →
        ok (retryLoop ok).1 = true ∧ ∀ j, 1 ≤ j → j < (retryLoop ok).1 → ok j = false) ∧
    ((drainSystem qs).done = false →
        joinReturns (drainSystem qs) = true ∧
        (drainSystem qs).outcomes.length = qs.length) ∧
    ((drainSystem qs).done = true → runWorkers more (drainSystem qs) = drainSystem qs) := by
  refine ⟨?_, retryLoop_first, ?_, fun h => runWorkers_absorb more _ h⟩
  · intro o ho
    rcases runWorkers_mem qs (initSys qs) o ho with h' | ⟨q, _, he⟩
    · simp [initSys] at h'
    · rw [he]
      refine ⟨(retryLoop_attempts q.writeOk).1, (retryLoop_attempts q.writeOk).2, ?_⟩
      exact fun hf => retryLoop_fail5 q.writeOk hf
  · intro hfin
    have hd := runWorkers_drained qs (initSys qs) (by simp [initSys]) hfin
    constructor
    · have h1 : (drainSystem qs).unfinished = 0 := by
        have := hd.1
        simp [initSys] at this
        exact this
      simp [joinReturns, h1]
    · have h2 := hd.2
      simp [initSys] at h2
      exact h2

/-- C6: a file whose size is not a multiple of PAGE_SIZE makes
`page_upload` return `(False, filesize, 0)` before anything happens: no
`put_blob` call, no flush, no enqueued task. -/
theorem C6_misaligned_fails_fast (file : List Nat) (b : Bool)
    (h : file.length % PAGE_SIZE ≠ 0) :
    page_upload { contents := some file, initOk := b } =
      { initCalls := [], flushes := [], tasks := [],
        result := some (false, file.length, 0) } := by
  simp [page_upload, h]

/-- Witness for C6 at the one-byte file [7]. -/
theorem C6_witness :
    page_upload { contents := some [7], initOk := true } =
      { initCalls := [], flushes := [], tasks := [],
        result := some (false, 1, 0) } :=
  C6_misaligned_fails_fast [7] true (by decide)

/-- C8 is refuted on the code: when `put_blob` fails for the first of two
files, the main loop dies with the uncaught exception and the remaining
file is never processed (no result is ever produced for it). -/
theorem C8_counterexample :
    ¬ (0 < (mainLoop [{ contents := some [], initOk := false },
                      { contents := some [], initOk := true }]).results.length) := by
  decide

/-- C8 (amended): when `put_blob` raises for a file, nothing was enqueued
for it and the worker system (given its empty queue) never sets the abort
flag; but the exception escapes `page_upload` uncaught and ends the
coordinator's loop at that file, so the remaining files are never
processed — the failure is not contained to the current file. -/
theorem C8_init_failure_kills_loop (file : List Nat) (rest : List FileInput)
    (h : file.length % PAGE_SIZE = 0) :
    (page_upload { contents := some file, initOk := false }).tasks = [] ∧
    (page_upload { contents := some file, initOk := false }).result = none ∧
    mainLoop ({ contents := some file, initOk := false } :: rest) =
      { results := [], total_uploaded := 0, raised := true } ∧
    (drainSystem []).done = false := by
  have hpu : page_upload { contents := some file, initOk := false } =
      { initCalls := [], flushes := [], tasks := [], result := none } := by
    simp [page_upload, h]
  refine ⟨by rw [hpu], by rw [hpu], ?_, rfl⟩
  simp [mainLoop, hpu]

/-- Witness for C8's amended theorem: an aligned (empty) file with failing
init, followed by one more file that is consequently never processed. -/
theorem C8_witness :
    (page_upload { contents := some [], initOk := false }).tasks = [] ∧
    (page_upload { contents := some [], initOk := false }).result = none ∧
    mainLoop [{ contents := some [], initOk := false },
              { contents := some [], initOk := true }] =
      { results := [], total_uploaded := 0, raised := true } ∧
    (drainSystem []).done = false :=
  C8_init_failure_kills_loop [] [{ contents := some [], initOk := true }] (by decide)

/-- C9: a readable empty file passes the alignment check, `put_blob` is
still called with declared length 0, the loop body never runs (the single
final flush carries `chunk_type = None` and enqueues nothing), and the call
returns `(True, 0, 0)`. -/
theorem C9_empty_file :
    page_upload { contents := some [], initOk := true } =
      { initCalls := [0],
        flushes := [{ fdata := none, foffset := 0, fsize := 0, fkind := none }],
        tasks := [], result := some (true, 0, 0) } := by
  decide

/-- C10: a file whose open fails with IOError makes `page_upload` return
`(False, 0, 0)` with no flush, no task and no remote call, and the
coordinator's loop goes on to process the remaining files exactly as it
would have without this file. -/
theorem C10_unreadable_file_skipped (b : Bool) (rest : List FileInput) :
    page_upload { contents := none, initOk := b } =
      { initCalls := [], flushes := [], tasks := [],
        result := some (false, 0, 0) } ∧
    mainLoop ({ contents := none, initOk := b } :: rest) =
      { results := (false, 0, 0) :: (mainLoop rest).results,
        total_uploaded := (mainLoop rest).total_uploaded,
        raised := (mainLoop rest).raised } := by
  constructor
  · rfl
  · simp [mainLoop, page_upload]

end AzUp

namespace AzUp

/-! ## Tiling helpers -/

lemma tilesK_snoc : ∀ (rs : List (Nat × Nat × Option PageKind)) (lo hi sz : Nat)
    (k : Option PageKind),
    tilesK lo hi rs = true → 0 < sz →
    tilesK lo (hi + sz) (rs ++ [(hi, sz, k)]) = true := by
  intro rs
  induction rs with
  | nil =>
    intro lo hi sz k h hs
    simp [tilesK] at h
    subst h
    simp [tilesK, hs]
  | cons r rs ih =>
    intro lo hi sz k h hs
    simp only [tilesK, Bool.and_eq_true, decide_eq_true_eq] at h
    obtain ⟨⟨h1, h2⟩, h3⟩ := h
    simp only [List.cons_append, tilesK, Bool.and_eq_true, decide_eq_true_eq]
    exact ⟨⟨h1, h2⟩, ih _ _ _ _ h3 hs⟩

lemma runsK_snoc_some (ks : List (Nat × Nat × Option PageKind))
    (r : Nat × Nat × Option PageKind) (k : PageKind) (h : r.2.2 = some k) :
    runsK (ks ++ [r]) = runsK ks ++ [r] := by
  simp [runsK, List.filter_append, h]

lemma runsK_snoc_none (ks : List (Nat × Nat × Option PageKind))
    (r : Nat × Nat × Option PageKind) (h : r.2.2 = none) :
    runsK (ks ++ [r]) = runsK ks := by
  simp [runsK, List.filter_append, h]

/-! ## kStep unfolding lemmas -/

lemma kStep_same_noflush (o : Nat) (ty : PageKind) (s : KState)
    (h : s.kty = some ty) (hm : s.ksize + PAGE_SIZE ≠ MAX_SIZE) :
    kStep o ty s = { s with ksize := s.ksize + PAGE_SIZE } := by
  simp [kStep, h, hm]

lemma kStep_same_max (o : Nat) (ty : PageKind) (s : KState)
    (h : s.kty = some ty) (hm : s.ksize + PAGE_SIZE = MAX_SIZE) :
    kStep o ty s =
      { kty := none, kstart := s.kstart, ksize := s.ksize + PAGE_SIZE,
        kuploaded := s.kuploaded +
          (if ty = PageKind.update then s.ksize + PAGE_SIZE else 0),
        kflushes := s.kflushes ++ [(s.kstart, s.ksize + PAGE_SIZE, some ty)],
        ktasks := s.ktasks ++
          (if ty = PageKind.update
           then [(s.kstart, s.ksize + PAGE_SIZE, PageKind.update)] else []) } := by
  simp [kStep, kDoFlush, h, hm]

lemma kStep_diff (o : Nat) (ty : PageKind) (s : KState) (h : ¬ s.kty = some ty) :
    kStep o ty s =
      { kty := some ty, kstart := o, ksize := PAGE_SIZE,
        kuploaded := s.kuploaded + upOfFlushK (s.kstart, s.ksize, s.kty),
        kflushes := s.kflushes ++ [(s.kstart, s.ksize, s.kty)],
        ktasks := s.ktasks ++
          (if s.kty = some PageKind.update
           then [(s.kstart, s.ksize, PageKind.update)] else []) } := by
  have hpm : ¬ (PAGE_SIZE = MAX_SIZE) := by decide
  simp [kStep, kDoFlush, h, hpm, upOfFlushK]

/-! ## The chunker invariant -/

lemma kInit_inv : KInv 0 kInit := by
  refine ⟨?_, ?_, ?_, ?_, ?_⟩
  · simp [kInit, kBoundary, runsK, tilesK]
  · intro ty hty
    simp [kInit] at hty
  · intro r hr
    simp [kInit] at hr
  · rfl
  · rfl

lemma kStep_inv (o : Nat) (ty : PageKind) (s : KState) (h : KInv o s) :
    KInv (o + PAGE_SIZE) (kStep o ty s) := by
  obtain ⟨htile, hopen, hbounds, htasks, hup⟩ := h
  by_cases hty : s.kty = some ty
  · obtain ⟨hsum, hpos, hlt, hmod⟩ := hopen ty hty
    rw [kBoundary, hty] at htile
    by_cases hm : s.ksize + PAGE_SIZE = MAX_SIZE
    · rw [kStep_same_max o ty s hty hm]
      refine ⟨?_, ?_, ?_, ?_, ?_⟩
      · simp only [kBoundary]
        rw [runsK_snoc_some _ _ ty rfl]
        have heq : o + PAGE_SIZE = s.kstart + (s.ksize + PAGE_SIZE) := by omega
        rw [heq]
        exact tilesK_snoc _ _ _ _ _ htile (by omega)
      · intro ty' hty'
        simp at hty'
      · intro r hr _
        rcases List.mem_append.mp hr with h' | h'
        · exact hbounds r h' (by assumption)
        · simp at h'
          subst h'
          dsimp only
          simp only [PAGE_SIZE, MAX_SIZE] at hmod hm ⊢
          omega
      · simp only [List.filterMap_append, htasks]
        by_cases hu : ty = PageKind.update <;> simp [taskOfFlushK, hu]
      · simp only [List.map_append, List.sum_append, hup]
        by_cases hu : ty = PageKind.update <;> simp [upOfFlushK, hu]
    · rw [kStep_same_noflush o ty s hty hm]
      refine ⟨?_, ?_, ?_, htasks, hup⟩
      · simpa [kBoundary, hty] using htile
      · intro ty' hty'
        dsimp only
        simp only [PAGE_SIZE, MAX_SIZE] at hsum hmod hlt hm ⊢
        omega
      · exact hbounds
  · rw [kStep_diff o ty s hty]
    have hbnew : ∀ r ∈ s.kflushes ++ [(s.kstart, s.ksize, s.kty)],
        r.2.2.isSome = true → 0 < r.2.1 ∧ r.2.1 % PAGE_SIZE = 0 ∧ r.2.1 ≤ MAX_SIZE := by
      intro r hr hsome
      rcases List.mem_append.mp hr with h' | h'
      · exact hbounds r h' hsome
      · simp at h'
        subst h'
        simp only at hsome
        rcases hk : s.kty with _ | ty0
        · rw [hk] at hsome
          simp at hsome
        · obtain ⟨_, hpos, hlt, hmod⟩ := hopen ty0 hk
          exact ⟨hpos, hmod, by dsimp only; omega⟩
    refine ⟨?_, ?_, hbnew, ?_, ?_⟩
    · simp only [kBoundary]
      rcases hk : s.kty with _ | ty0
      · rw [runsK_snoc_none _ _ (by simp [hk])]
        rw [kBoundary, hk] at htile
        exact htile
      · rw [runsK_snoc_some _ _ ty0 (by simp [hk])]
        obtain ⟨hsum, hpos, _, _⟩ := hopen ty0 hk
        rw [kBoundary, hk] at htile
        have heq : o = s.kstart + s.ksize := by omega
        rw [heq]
        exact tilesK_snoc _ _ _ _ _ htile (by omega)
    · intro ty' hty'
      dsimp only
      refine ⟨rfl, by decide, by decide, by decide⟩
    · simp only [List.filterMap_append, htasks]
      by_cases hu : s.kty = some PageKind.update <;> simp [taskOfFlushK, hu]
    · simp only [List.map_append, List.sum_append, hup]
      rfl

lemma kChunkLoop_inv : ∀ (ts : List PageKind) (o : Nat) (s : KState),
    KInv o s → KInv (o + PAGE_SIZE * ts.length) (kChunkLoop ts o s) := by
  intro ts
  induction ts with
  | nil => intro o s h; simpa [kChunkLoop] using h
  | cons t ts ih =>
    intro o s h
    have hrec := ih (o + PAGE_SIZE) (kStep o t s) (kStep_inv o t s h)
    have harith : o + PAGE_SIZE * (t :: ts).length =
        (o + PAGE_SIZE) + PAGE_SIZE * ts.length := by
      simp [List.length_cons]
      ring
    rw [harith]
    simpa only [kChunkLoop] using hrec

lemma kFinal (o : Nat) (s : KState) (h : KInv o s) :
    tilesK 0 o (runsK (kDoFlush s).kflushes) = true ∧
    (∀ r ∈ (kDoFlush s).kflushes, r.2.2.isSome = true →
        0 < r.2.1 ∧ r.2.1 % PAGE_SIZE = 0 ∧ r.2.1 ≤ MAX_SIZE) ∧
    (kDoFlush s).ktasks = (kDoFlush s).kflushes.filterMap taskOfFlushK ∧
    (kDoFlush s).kuploaded = ((kDoFlush s).kflushes.map upOfFlushK).sum := by
  obtain ⟨htile, hopen, hbounds, htasks, hup⟩ := h
  refine ⟨?_, ?_, ?_, ?_⟩
  · simp only [kDoFlush]
    rcases hk : s.kty with _ | ty0
    · rw [runsK_snoc_none _ _ (by simp [hk])]
      rw [kBoundary, hk] at htile
      exact htile
    · rw [runsK_snoc_some _ _ ty0 (by simp [hk])]
      obtain ⟨hsum, hpos, _, _⟩ := hopen ty0 hk
      rw [kBoundary, hk] at htile
      have heq : o = s.kstart + s.ksize := by omega
      rw [heq]
      exact tilesK_snoc _ _ _ _ _ htile (by omega)
  · intro r hr hsome
    simp only [kDoFlush] at hr
    rcases List.mem_append.mp hr with h' | h'
    · exact hbounds r h' hsome
    · simp at h'
      subst h'
      simp only at hsome
      rcases hk : s.kty with _ | ty0
      · rw [hk] at hsome
        simp at hsome
      · obtain ⟨_, hpos, hlt, hmod⟩ := hopen ty0 hk
        exact ⟨hpos, hmod, by dsimp only; omega⟩
  · simp only [kDoFlush, List.filterMap_append, htasks]
    by_cases hu : s.kty = some PageKind.update <;> simp [taskOfFlushK, hu]
  · simp only [kDoFlush, List.map_append, List.sum_append, hup]
    rfl

end AzUp

namespace AzUp

/-! ## Projection correspondence: the chunker loses nothing but payloads -/

lemma taskLen_mk (o n : Nat) (d : Option (List Nat)) :
    taskLen { rangeStart := o, rangeEnd := (o : Int) + (n : Int) - 1,
              payload := d, kind := PageKind.update } = n := by
  simp only [taskLen]
  omega

lemma proj_doFlush (s : ChunkState) : projChunk (doFlush s) = kDoFlush (projChunk s) := by
  by_cases h : s.chunk_type = some PageKind.update
  · simp [projChunk, doFlush, kDoFlush, page_write, h, flushSig, taskSig, taskLen_mk]
  · simp [projChunk, doFlush, kDoFlush, page_write, h, flushSig]

lemma proj_chunkStep (o : Nat) (p : List Nat) (s : ChunkState) :
    projChunk (chunkStep o p s) = kStep o (classifyPage p) (projChunk s) := by
  by_cases hty : s.chunk_type = some (classifyPage p)
  · by_cases hm : s.chunk_size + PAGE_SIZE = MAX_SIZE
    · rw [kStep_same_max o (classifyPage p) (projChunk s) hty hm]
      by_cases hu : classifyPage p = PageKind.update
      · simp [chunkStep, projChunk, doFlush, page_write, flushSig, taskSig,
              hty, hm, hu, taskLen_mk]
      · simp [chunkStep, projChunk, doFlush, page_write, flushSig, taskSig,
              hty, hm, hu]
    · rw [kStep_same_noflush o (classifyPage p) (projChunk s) hty hm]
      simp [chunkStep, projChunk, hty, hm]
  · rw [kStep_diff o (classifyPage p) (projChunk s) hty]
    have hpm : ¬ ((0 : Nat) + PAGE_SIZE = MAX_SIZE) := by decide
    have hpm2 : ¬ (PAGE_SIZE = MAX_SIZE) := by decide
    by_cases hu : s.chunk_type = some PageKind.update
    · have hne : ¬ (PageKind.update = classifyPage p) := fun he => hty (by rw [hu, he])
      simp [chunkStep, projChunk, doFlush, page_write, flushSig, taskSig,
            upOfFlushK, hty, hu, hne, hpm, hpm2, taskLen_mk]
    · simp [chunkStep, projChunk, doFlush, page_write, flushSig, taskSig,
            upOfFlushK, hty, hu, hpm, hpm2]

lemma proj_chunkLoop : ∀ (pages : List (List Nat)) (o : Nat) (s : ChunkState),
    projChunk (chunkLoop pages o s) = kChunkLoop (pages.map classifyPage) o (projChunk s) := by
  intro pages
  induction pages with
  | nil => intro o s; rfl
  | cons p ps ih =>
    intro o s
    simp only [chunkLoop, List.map_cons, kChunkLoop]
    rw [ih, proj_chunkStep]

lemma proj_chunkFile (file : List Nat) :
    projChunk (chunkFile file) = kChunkFile ((toPages file).map classifyPage) := by
  rw [chunkFile, kChunkFile, proj_doFlush, proj_chunkLoop]
  rfl

lemma chunkFile_flushes_sig (file : List Nat) :
    (chunkFile file).flushes.map flushSig =
      (kChunkFile ((toPages file).map classifyPage)).kflushes :=
  congrArg KState.kflushes (proj_chunkFile file)

lemma chunkFile_tasks_sig (file : List Nat) :
    (chunkFile file).tasks.map taskSig =
      (kChunkFile ((toPages file).map classifyPage)).ktasks :=
  congrArg KState.ktasks (proj_chunkFile file)

lemma chunkFile_uploaded_sig (file : List Nat) :
    (chunkFile file).uploaded =
      (kChunkFile ((toPages file).map classifyPage)).kuploaded :=
  congrArg KState.kuploaded (proj_chunkFile file)

lemma runsOf_map_sig : ∀ fs : List FlushCall,
    (runsOf fs).map flushSig = runsK (fs.map flushSig) := by
  intro fs
  induction fs with
  | nil => rfl
  | cons f fs ih =>
    simp only [runsOf, runsK] at ih
    rcases hk : f.fkind with _ | k <;>
      simp [runsOf, runsK, flushSig, hk, ih, List.filter_cons]

end AzUp

namespace AzUp

/-! ## Page-splitting lemmas -/

lemma toPagesAux_length : ∀ (fuel : Nat) (file : List Nat), file.length ≤ fuel →
    file.length % PAGE_SIZE = 0 →
    PAGE_SIZE * (toPagesAux fuel file).length = file.length := by
  intro fuel
  induction fuel with
  | zero =>
    intro file hle _
    have h0 : file = [] := List.length_eq_zero.mp (by omega)
    subst h0
    simp [toPagesAux]
  | succ n ih =>
    intro file hle hmod
    cases file with
    | nil => simp [toPagesAux]
    | cons b rest =>
      have hL : (b :: rest).length = rest.length + 1 := List.length_cons b rest
      rw [hL] at hle hmod
      have hdl : ((b :: rest).drop PAGE_SIZE).length = rest.length + 1 - PAGE_SIZE := by
        rw [List.length_drop, hL]
      have hrec := ih ((b :: rest).drop PAGE_SIZE)
        (by rw [hdl]; simp only [PAGE_SIZE]; omega)
        (by rw [hdl]; simp only [PAGE_SIZE] at hmod ⊢; omega)
      rw [hdl] at hrec
      simp only [toPagesAux, List.length_cons]
      simp only [PAGE_SIZE] at hrec hmod ⊢
      omega

lemma toPages_length (file : List Nat) (h : file.length % PAGE_SIZE = 0) :
    PAGE_SIZE * (toPages file).length = file.length :=
  toPagesAux_length file.length file le_rfl h

lemma toPagesAux_zero : ∀ (fuel : Nat) (file : List Nat),
    file.length % PAGE_SIZE = 0 → (∀ b ∈ file, b = 0) →
    ∀ p ∈ toPagesAux fuel file, classifyPage p = PageKind.clear := by
  intro fuel
  induction fuel with
  | zero =>
    intro file _ _ p hp
    simp [toPagesAux] at hp
  | succ n ih =>
    intro file hmod hz p hp
    cases file with
    | nil => simp [toPagesAux] at hp
    | cons b rest =>
      simp only [toPagesAux, List.mem_cons] at hp
      rcases hp with hp | hp
      · subst hp
        have hlen : 512 ≤ rest.length + 1 := by
          have hm := hmod
          simp only [List.length_cons, PAGE_SIZE] at hm
          omega
        have hplen : ((b :: rest).take PAGE_SIZE).length = PAGE_SIZE := by
          simp only [List.length_take, List.length_cons, PAGE_SIZE]
          omega
        have hrep : (b :: rest).take PAGE_SIZE = List.replicate PAGE_SIZE 0 := by
          rw [List.eq_replicate_iff]
          exact ⟨hplen, fun x hx => hz x (List.take_subset _ _ hx)⟩
        simp [classifyPage, hrep]
      · have hdlen : ((b :: rest).drop PAGE_SIZE).length % PAGE_SIZE = 0 := by
          have hm := hmod
          simp only [List.length_cons, PAGE_SIZE] at hm
          simp only [List.length_drop, List.length_cons, PAGE_SIZE]
          omega
        exact ih _ hdlen (fun x hx => hz x (List.drop_subset _ _ hx)) p hp

lemma toPagesAux_nonzero : ∀ (fuel : Nat) (file : List Nat),
    (∀ b ∈ file, b ≠ 0) →
    ∀ p ∈ toPagesAux fuel file, classifyPage p = PageKind.update := by
  intro fuel
  induction fuel with
  | zero =>
    intro file _ p hp
    simp [toPagesAux] at hp
  | succ n ih =>
    intro file hz p hp
    cases file with
    | nil => simp [toPagesAux] at hp
    | cons b rest =>
      simp only [toPagesAux, List.mem_cons] at hp
      rcases hp with hp | hp
      · subst hp
        by_cases hrep : (b :: rest).take PAGE_SIZE = List.replicate PAGE_SIZE 0
        · exfalso
          have h0 : (0 : Nat) ∈ List.replicate PAGE_SIZE 0 := by
            rw [List.mem_replicate]
            exact ⟨by decide, rfl⟩
          have h1 : (0 : Nat) ∈ (b :: rest).take PAGE_SIZE := by
            rw [hrep]
            exact h0
          exact hz 0 (List.take_subset _ _ h1) rfl
        · simp [classifyPage, hrep]
      · exact ih _ (fun x hx => hz x (List.drop_subset _ _ hx)) p hp

lemma toPages_nonzero (file : List Nat) (hz : ∀ b ∈ file, b ≠ 0) :
    ∀ p ∈ toPages file, classifyPage p = PageKind.update :=
  toPagesAux_nonzero file.length file hz

/-! ## All-clear runs enqueue nothing -/

lemma kStep_clear (o : Nat) (s : KState) (h : ¬ s.kty = some PageKind.update) :
    ¬ (kStep o PageKind.clear s).kty = some PageKind.update ∧
    (kStep o PageKind.clear s).ktasks = s.ktasks ∧
    (kStep o PageKind.clear s).kuploaded = s.kuploaded := by
  by_cases hty : s.kty = some PageKind.clear
  · by_cases hm : s.ksize + PAGE_SIZE = MAX_SIZE
    · rw [kStep_same_max o _ s hty hm]
      simp
    · rw [kStep_same_noflush o _ s hty hm]
      exact ⟨h, rfl, rfl⟩
  · rw [kStep_diff o _ s hty]
    refine ⟨by simp, by simp [h], by simp [upOfFlushK, h]⟩

lemma kLoop_clear : ∀ (ks : List PageKind) (o : Nat) (s : KState),
    (∀ t ∈ ks, t = PageKind.clear) → ¬ s.kty = some PageKind.update →
    ¬ (kChunkLoop ks o s).kty = some PageKind.update ∧
    (kChunkLoop ks o s).ktasks = s.ktasks ∧
    (kChunkLoop ks o s).kuploaded = s.kuploaded := by
  intro ks
  induction ks with
  | nil => intro o s _ h; exact ⟨h, rfl, rfl⟩
  | cons t ts ih =>
    intro o s hcl h
    have ht : t = PageKind.clear := hcl t (List.mem_cons_self _ _)
    subst ht
    have hstep := kStep_clear o s h
    have hrec := ih (o + PAGE_SIZE) (kStep o PageKind.clear s)
      (fun x hx => hcl x (List.mem_cons_of_mem _ hx)) hstep.1
    simp only [kChunkLoop]
    exact ⟨hrec.1, hrec.2.1.trans hstep.2.1, hrec.2.2.trans hstep.2.2⟩

lemma kDoFlush_clear (s : KState) (h : ¬ s.kty = some PageKind.update) :
    (kDoFlush s).ktasks = s.ktasks ∧ (kDoFlush s).kuploaded = s.kuploaded := by
  simp [kDoFlush, h]

/-! ## Sums transfer from flush shapes to task lengths -/

lemma sum_up_filterMap : ∀ ks : List (Nat × Nat × Option PageKind),
    (ks.map upOfFlushK).sum = ((ks.filterMap taskOfFlushK).map (fun t => t.2.1)).sum := by
  intro ks
  induction ks with
  | nil => rfl
  | cons r ks ih =>
    by_cases hu : r.2.2 = some PageKind.update <;>
      simp [upOfFlushK, taskOfFlushK, hu, List.filterMap_cons, ih]

lemma map_taskLen_sig (ts : List WriteTask) :
    ts.map taskLen = (ts.map taskSig).map (fun t => t.2.1) := by
  simp only [List.map_map]
  rfl

end AzUp

namespace AzUp

/-! ## Whole-file chunker facts -/

lemma page_upload_ok (file : List Nat) (h : file.length % PAGE_SIZE = 0) :
    page_upload { contents := some file, initOk := true } =
      { initCalls := [file.length], flushes := (chunkFile file).flushes,
        tasks := (chunkFile file).tasks,
        result := some (true, file.length, (chunkFile file).uploaded) } := by
  simp [page_upload, h]

lemma chunkFile_kfinal (file : List Nat) :
    tilesK 0 (0 + PAGE_SIZE * ((toPages file).map classifyPage).length)
      (runsK (kChunkFile ((toPages file).map classifyPage)).kflushes) = true ∧
    (∀ r ∈ (kChunkFile ((toPages file).map classifyPage)).kflushes,
        r.2.2.isSome = true →
        0 < r.2.1 ∧ r.2.1 % PAGE_SIZE = 0 ∧ r.2.1 ≤ MAX_SIZE) ∧
    (kChunkFile ((toPages file).map classifyPage)).ktasks =
      (kChunkFile ((toPages file).map classifyPage)).kflushes.filterMap taskOfFlushK ∧
    (kChunkFile ((toPages file).map classifyPage)).kuploaded =
      ((kChunkFile ((toPages file).map classifyPage)).kflushes.map upOfFlushK).sum :=
  kFinal _ _ (kChunkLoop_inv ((toPages file).map classifyPage) 0 kInit kInit_inv)

lemma chunkFile_task_shape (file : List Nat) :
    ∀ t ∈ (chunkFile file).tasks, t.kind = PageKind.update ∧
      0 < taskLen t ∧ taskLen t % PAGE_SIZE = 0 ∧ taskLen t ≤ MAX_SIZE := by
  intro t ht
  have hfin := chunkFile_kfinal file
  have hmem : taskSig t ∈ (kChunkFile ((toPages file).map classifyPage)).ktasks := by
    rw [← chunkFile_tasks_sig file]
    exact List.mem_map_of_mem _ ht
  rw [hfin.2.2.1] at hmem
  obtain ⟨r, hr, hrt⟩ := List.mem_filterMap.mp hmem
  have hu : r.2.2 = some PageKind.update := by
    by_contra hne
    simp [taskOfFlushK, hne] at hrt
  rw [taskOfFlushK, if_pos hu] at hrt
  have hcomp := Option.some.inj hrt
  have h1 : r.2.1 = taskLen t := congrArg (fun x => x.2.1) hcomp
  have h2 : PageKind.update = t.kind := congrArg (fun x => x.2.2) hcomp
  have hb := hfin.2.1 r hr (by simp [hu])
  rw [h1] at hb
  exact ⟨h2.symm, hb⟩

lemma chunkFile_flush_shape (file : List Nat) :
    ∀ f ∈ (chunkFile file).flushes, f.fkind.isSome = true →
      0 < f.fsize ∧ f.fsize % PAGE_SIZE = 0 ∧ f.fsize ≤ MAX_SIZE := by
  intro f hf hsome
  have hfin := chunkFile_kfinal file
  have hmem : flushSig f ∈ (kChunkFile ((toPages file).map classifyPage)).kflushes := by
    rw [← chunkFile_flushes_sig file]
    exact List.mem_map_of_mem _ hf
  exact hfin.2.1 (flushSig f) hmem hsome

lemma chunkFile_tile (file : List Nat) (h : file.length % PAGE_SIZE = 0) :
    tilesB 0 file.length (runsOf (chunkFile file).flushes) = true := by
  have hfin := (chunkFile_kfinal file).1
  simp only [List.length_map, Nat.zero_add] at hfin
  rw [toPages_length file h] at hfin
  show tilesK 0 file.length ((runsOf (chunkFile file).flushes).map flushSig) = true
  rw [runsOf_map_sig, chunkFile_flushes_sig file]
  exact hfin

lemma chunkFile_uploaded_sum (file : List Nat) :
    (chunkFile file).uploaded = ((chunkFile file).tasks.map taskLen).sum := by
  have hfin := chunkFile_kfinal file
  rw [chunkFile_uploaded_sig file, hfin.2.2.2, sum_up_filterMap, ← hfin.2.2.1,
      ← chunkFile_tasks_sig file, ← map_taskLen_sig]

lemma chunkFile_zero (file : List Nat) (h : file.length % PAGE_SIZE = 0)
    (hz : ∀ b ∈ file, b = 0) :
    (chunkFile file).tasks = [] ∧ (chunkFile file).uploaded = 0 := by
  have hclear : ∀ t ∈ (toPages file).map classifyPage, t = PageKind.clear := by
    intro t ht
    obtain ⟨p, hp, rfl⟩ := List.mem_map.mp ht
    exact toPagesAux_zero file.length file h hz p hp
  have hloop := kLoop_clear ((toPages file).map classifyPage) 0 kInit hclear (by simp [kInit])
  have hdf := kDoFlush_clear _ hloop.1
  have h1 : (kChunkFile ((toPages file).map classifyPage)).ktasks = [] := by
    rw [kChunkFile, hdf.1, hloop.2.1]
    rfl
  have h2 : (kChunkFile ((toPages file).map classifyPage)).kuploaded = 0 := by
    rw [kChunkFile, hdf.2, hloop.2.2]
    rfl
  constructor
  · have hsig := chunkFile_tasks_sig file
    rw [h1] at hsig
    exact List.map_eq_nil_iff.mp hsig
  · rw [chunkFile_uploaded_sig file, h2]

/-- C2: for every file whose size is a positive multiple of PAGE_SIZE, the
non-empty runs the chunker flushes (both clear and update kinds), in
emission order, exactly tile the interval [0, filesize): the first starts
at 0, each run starts where the previous ended, and the last ends exactly
at filesize. -/
theorem C2_runs_tile (file : List Nat) (h1 : file.length % PAGE_SIZE = 0)
    (h2 : 0 < file.length) :
    tilesB 0 file.length
      (runsOf (page_upload { contents := some file, initOk := true }).flushes) = true := by
  rw [page_upload_ok file h1]
  exact chunkFile_tile file h1

set_option maxRecDepth 100000 in
/-- Witness for C2 at a two-page file (one zero page, one data page). -/
theorem C2_witness :
    tilesB 0 exFile2.length
      (runsOf (page_upload { contents := some exFile2, initOk := true }).flushes) = true := by
  exact C2_runs_tile exFile2 (by decide) (by decide)

/-- C3: every non-empty run flushed by the chunker has a length that is a
positive multiple of PAGE_SIZE and at most MAX_SIZE, and in particular
every enqueued task's byte-length is a positive multiple of PAGE_SIZE not
exceeding MAX_SIZE — on every input (for an unreadable, misaligned or
init-failing input no run is flushed at all, so the bound holds vacuously). -/
theorem C3_run_bounds (inp : FileInput) :
    (∀ f ∈ (page_upload inp).flushes, f.fkind.isSome = true →
        0 < f.fsize ∧ f.fsize % PAGE_SIZE = 0 ∧ f.fsize ≤ MAX_SIZE) ∧
    (∀ t ∈ (page_upload inp).tasks,
        0 < taskLen t ∧ taskLen t % PAGE_SIZE = 0 ∧ taskLen t ≤ MAX_SIZE) := by
  rcases inp with ⟨contents, initOk⟩
  cases contents with
  | none =>
    constructor <;> intro x hx <;> simp [page_upload] at hx
  | some file =>
    by_cases hal : file.length % PAGE_SIZE = 0
    · cases initOk with
      | false =>
        constructor <;> intro x hx <;> simp [page_upload, hal] at hx
      | true =>
        rw [page_upload_ok file hal]
        exact ⟨chunkFile_flush_shape file,
               fun t ht => (chunkFile_task_shape file t ht).2⟩
    · constructor <;> intro x hx <;> simp [page_upload, hal] at hx

set_option maxRecDepth 100000 in
/-- Witness for C3's task bound at the single task of a one-page data file. -/
theorem C3_witness :
    0 < taskLen exTask2 ∧ taskLen exTask2 % PAGE_SIZE = 0 ∧
      taskLen exTask2 ≤ MAX_SIZE := by
  exact (C3_run_bounds { contents := some exPageData, initOk := true }).2 exTask2
    (by decide)

/-- C4: only "update" (DATA) runs are ever enqueued; the uploaded byte
count that `page_upload` reports equals exactly the sum of the enqueued
tasks' byte-lengths; and a file consisting entirely of zero bytes enqueues
no task and reports zero bytes uploaded with a success result. -/
theorem C4_only_update_tasks (file : List Nat) (h : file.length % PAGE_SIZE = 0) :
    (∀ t ∈ (page_upload { contents := some file, initOk := true }).tasks,
        t.kind = PageKind.update) ∧
    (page_upload { contents := some file, initOk := true }).result =
      some (true, file.length,
        (((page_upload { contents := some file, initOk := true }).tasks).map taskLen).sum) ∧
    ((∀ b ∈ file, b = 0) →
      (page_upload { contents := some file, initOk := true }).tasks = [] ∧
      (page_upload { contents := some file, initOk := true }).result =
        some (true, file.length, 0)) := by
  rw [page_upload_ok file h]
  refine ⟨?_, ?_, ?_⟩
  · exact fun t ht => (chunkFile_task_shape file t ht).1
  · simp only
    rw [chunkFile_uploaded_sum file]
  · intro hz
    have hc := chunkFile_zero file h hz
    simp only
    rw [hc.1, hc.2]
    exact ⟨rfl, rfl⟩

set_option maxRecDepth 100000 in
/-- Witness for C4 at a one-page all-zero file: no task, zero uploaded. -/
theorem C4_witness :
    (page_upload { contents := some exPageZero, initOk := true }).tasks = [] ∧
    (page_upload { contents := some exPageZero, initOk := true }).result =
      some (true, exPageZero.length, 0) := by
  exact (C4_only_update_tasks exPageZero (by decide)).2.2 (by decide)

end AzUp

namespace AzUp

/-! ## The MAX_SIZE boundary: an all-update file one page over MAX_SIZE -/

lemma kChunkLoop_cons (t : PageKind) (ts : List PageKind) (o : Nat) (s : KState) :
    kChunkLoop (t :: ts) o s = kChunkLoop ts (o + PAGE_SIZE) (kStep o t s) := rfl

lemma kChunkLoop_append : ∀ (a b : List PageKind) (o : Nat) (s : KState),
    kChunkLoop (a ++ b) o s =
      kChunkLoop b (o + PAGE_SIZE * a.length) (kChunkLoop a o s) := by
  intro a
  induction a with
  | nil => intro b o s; simp [kChunkLoop]
  | cons t ts ih =>
    intro b o s
    rw [List.cons_append]
    show kChunkLoop (ts ++ b) (o + PAGE_SIZE) (kStep o t s) = _
    rw [ih]
    congr 1
    simp only [List.length_cons]
    ring

lemma kLoop_fill (u : PageKind) : ∀ (n o : Nat) (s : KState),
    s.kty = some u → s.ksize + PAGE_SIZE * n < MAX_SIZE →
    kChunkLoop (List.replicate n u) o s = { s with ksize := s.ksize + PAGE_SIZE * n } := by
  intro n
  induction n with
  | zero =>
    intro o s _ _
    simp [kChunkLoop]
  | succ k ih =>
    intro o s h hb
    rw [List.replicate_succ]
    simp only [kChunkLoop]
    have hm : s.ksize + PAGE_SIZE ≠ MAX_SIZE := by
      have harith : s.ksize + PAGE_SIZE ≤ s.ksize + PAGE_SIZE * (k + 1) := by
        have : PAGE_SIZE ≤ PAGE_SIZE * (k + 1) := Nat.le_mul_of_pos_right _ (by omega)
        omega
      omega
    rw [kStep_same_noflush o u s h hm]
    rw [ih (o + PAGE_SIZE) { s with ksize := s.ksize + PAGE_SIZE } h
      (by show s.ksize + PAGE_SIZE + PAGE_SIZE * k < MAX_SIZE
          rw [show s.ksize + PAGE_SIZE + PAGE_SIZE * k = s.ksize + PAGE_SIZE * (k + 1) from
            by ring]
          exact hb)]
    show ({ s with ksize := s.ksize + PAGE_SIZE + PAGE_SIZE * k } : KState) = _
    rw [show s.ksize + PAGE_SIZE + PAGE_SIZE * k = s.ksize + PAGE_SIZE * (k + 1) from by ring]

set_option maxRecDepth 100000 in
lemma kRun_all_update :
    (kChunkFile (List.replicate 8193 PageKind.update)).ktasks =
      [(0, MAX_SIZE, PageKind.update), (MAX_SIZE, PAGE_SIZE, PageKind.update)] := by
  have hsplit : List.replicate 8193 PageKind.update =
      PageKind.update ::
        (List.replicate 8190 PageKind.update ++ [PageKind.update, PageKind.update]) := by
    rw [show (8193 : Nat) = 1 + (8190 + 2) from by norm_num]
    rw [List.replicate_add, List.replicate_add]
    rfl
  rw [kChunkFile, hsplit]
  rw [kChunkLoop_cons]
  rw [show kStep 0 PageKind.update kInit =
      { kty := some PageKind.update, kstart := 0, ksize := PAGE_SIZE, kuploaded := 0,
        kflushes := [(0, 0, none)], ktasks := [] } from by decide]
  rw [kChunkLoop_append]
  rw [kLoop_fill PageKind.update 8190 (0 + PAGE_SIZE)
      { kty := some PageKind.update, kstart := 0, ksize := PAGE_SIZE, kuploaded := 0,
        kflushes := [(0, 0, none)], ktasks := [] } rfl (by decide)]
  simp only [List.length_replicate]
  decide

/-- C7: for a file of size MAX_SIZE + PAGE_SIZE all of whose pages are
DATA, exactly two tasks are enqueued: one of length MAX_SIZE at offset 0
and one of length PAGE_SIZE at offset MAX_SIZE — the flush at the MAX_SIZE
boundary does not enqueue the same byte range twice (the stale re-flush
after the boundary carries `chunk_type = None` and enqueues nothing). -/
theorem C7_two_tasks (file : List Nat)
    (hlen : file.length = MAX_SIZE + PAGE_SIZE)
    (hupd : ∀ p ∈ toPages file, classifyPage p = PageKind.update) :
    ((page_upload { contents := some file, initOk := true }).tasks).map taskSig =
      [(0, MAX_SIZE, PageKind.update), (MAX_SIZE, PAGE_SIZE, PageKind.update)] := by
  have hal : file.length % PAGE_SIZE = 0 := by
    rw [hlen]
    decide
  rw [page_upload_ok file hal]
  simp only
  rw [chunkFile_tasks_sig file]
  have hnum : (toPages file).length = 8193 := by
    have hL := toPages_length file hal
    rw [hlen] at hL
    simp only [PAGE_SIZE, MAX_SIZE] at hL ⊢
    omega
  have hks : (toPages file).map classifyPage = List.replicate 8193 PageKind.update := by
    rw [List.eq_replicate_iff]
    constructor
    · simp [hnum]
    · intro t ht
      obtain ⟨p, hp, rfl⟩ := List.mem_map.mp ht
      exact hupd p hp
  rw [hks]
  exact kRun_all_update

set_option maxRecDepth 100000 in
/-- Witness for C7 at the concrete all-ones file of MAX_SIZE + PAGE_SIZE
bytes. -/
theorem C7_witness :
    ((page_upload { contents := some exBigFile, initOk := true }).tasks).map taskSig =
      [(0, MAX_SIZE, PageKind.update), (MAX_SIZE, PAGE_SIZE, PageKind.update)] := by
  exact C7_two_tasks exBigFile (by simp [exBigFile])
    (toPages_nonzero exBigFile (by
      intro b hb
      simp [exBigFile] at hb
      omega))

end AzUp
